import Mathlib

/-!
Verification of the DNS stub resolver (dns/resolver.py).

This file gives a shallow embedding of the resolver's data model and
operations, translated from the Python source:

* association-list dictionaries (Python dict, insertion ordered);
* domain names as label lists (dns.name.Name: absolute names end with the
  empty root label);
* rrsets, responses and the Answer construction algorithm
  (Answer.__init__: CNAME chase bounded to 15 hops, SOA walk,
  min_ttl starting at -1);
* the simple Cache and the LRUCache (the circular recency list is
  embedded as a plain list ordered from sentinel.next, the
  most-recently-used node, to sentinel.prev, the eviction victim);
* the NXDOMAIN merge operator (NXDOMAIN.__add__);
* the candidate-name builder (Resolver._get_qnames_to_try);
* the resolution state machine (_Resolution.next_request,
  _Resolution.next_nameserver, _Resolution.query_result) and the driver
  loop of Resolver.resolve, with a pluggable transport.

Wall-clock instants and TTL arithmetic use Int (time.time() is passed in
explicitly as a parameter named now).  Python exceptions are modelled by
Except over the PyErr sum type.
-/

set_option autoImplicit false

/-- String literals used by concrete test configurations. -/
def rootLabel : String := ""

def lHost : String := "host"

def lCorp : String := "corp"

def lExample : String := "example"

def lA : String := "a"

def lB : String := "b"

def lC : String := "c"

def ns1 : String := "10.0.0.1"

def ns2 : String := "10.0.0.2"

/-! ### Association-list dictionaries

Python dicts keep insertion order; assignment overwrites in place,
otherwise appends.  Lookup returns the value of the (unique) matching
key; on lists built with `dinsert` the first match is the only one. -/

/-- Dictionary lookup (Python `d.get(k)` / `d[k]`). -/
def dlookup {K V : Type} [DecidableEq K] : List (K × V) → K → Option V
  | [], _ => none
  | e :: es, k => if e.1 = k then some e.2 else dlookup es k

/-- Dictionary assignment (Python `d[k] = v`): overwrite in place if the
key exists, otherwise append at the end. -/
def dinsert {K V : Type} [DecidableEq K] : List (K × V) → K → V → List (K × V)
  | [], k, v => [(k, v)]
  | e :: es, k, v => if e.1 = k then (k, v) :: es else e :: dinsert es k v

/-- Python `list.pop()`: remove and return the LAST element. -/
def pyPop {α : Type} : List α → Option (α × List α)
  | [] => none
  | x :: xs =>
    match pyPop xs with
    | none => some (x, [])
    | some (last, rest) => some (last, x :: rest)

/-! ### Domain names

dns.name.Name is a tuple of labels; an absolute name ends with the empty
root label.  `len(name)` is the number of labels (root label included for
absolute names).  `parent()` drops the leftmost label and raises NoParent
on the root or the empty name.  `concatenate` (used only on relative
names here) appends label sequences. -/

abbrev DName := List String

/-- dns.name.root, the absolute root name. -/
def dnsRoot : DName := [rootLabel]

/-- dns.name.Name.is_absolute: the name ends with the empty label. -/
def isAbsolute (n : DName) : Bool := n.getLast? = some rootLabel

/-- dns.name.Name.concatenate for a relative left operand. -/
def nameConcat (a b : DName) : DName := a ++ b

/-! ### RRsets and responses -/

/-- dns.rdatatype.CNAME -/
def rtCNAME : Nat := 5

/-- dns.rdatatype.SOA -/
def rtSOA : Nat := 6

/-- dns.rdatatype.A -/
def rtA : Nat := 1

/-- dns.rdataclass.IN -/
def rcIN : Nat := 1

/-- dns.rcode.NOERROR -/
def rcodeNOERROR : Nat := 0

/-- dns.rcode.SERVFAIL -/
def rcodeSERVFAIL : Nat := 2

/-- dns.rcode.NXDOMAIN -/
def rcodeNXDOMAIN : Nat := 3

/-- dns.rcode.YXDOMAIN -/
def rcodeYXDOMAIN : Nat := 6

/-- A record set: owner name, class, type, TTL, plus the fields of its
first rdata that Answer.__init__ reads: `targets` holds the CNAME
targets (`rd.target` for each rd; only the first is used) and `minimum`
the SOA minimum field (`srrset[0].minimum`). -/
structure RRset where
  name : DName
  rdclass : Nat
  rdtype : Nat
  ttl : Nat
  targets : List DName
  minimum : Nat
deriving DecidableEq

/-- A DNS response message: the sections Answer.__init__ and
query_result read. -/
structure Response where
  answer : List RRset
  authority : List RRset
  rcode : Nat
deriving DecidableEq

/-- dns.message.Message.find_rrset restricted to lookup: the first rrset
of the section with the given owner name, class and type (raises KeyError,
modelled as none, when there is no match). -/
def findRRset (sec : List RRset) (name : DName) (rdclass rdtype : Nat) :
    Option RRset :=
  sec.find? (fun r => decide (r.name = name ∧ r.rdclass = rdclass ∧ r.rdtype = rdtype))

/-! ### Errors

The Python exceptions that can escape the modelled operations. -/

/-- The per-attempt error classes distinguished by query_result's error
path. -/
inductive QueryErr where
  | formError
  | eofError
  | notImplemented
  | truncated
  | otherErr
deriving DecidableEq

/-- What the fourth component of an errors-list entry holds: the caught
exception, a YXDOMAIN instance, or dns.rcode.to_text(rcode). -/
inductive ErrVal where
  | pyex (e : QueryErr)
  | yx
  | rcodeText (rcode : Nat)
deriving DecidableEq

/-- One entry of _Resolution.errors:
(nameserver, tcp_attempt, port, error, response). -/
structure ErrEntry where
  nameserver : Option String
  tcp_attempt : Bool
  port : Nat
  err : ErrVal
  response : Option Response
deriving DecidableEq

/-- Python exceptions raised by the modelled code paths. -/
inductive PyErr where
  | attributeError
  | noAnswer
  | nxdomain (qnames : List DName) (responses : List (DName × Response))
  | yxdomain
  | noNameservers (errors : List ErrEntry)
  | assertionError
  | indexError
  | valueError
deriving DecidableEq

/-! ### Answer construction (Answer.__init__)

min_ttl starts at -1.  The CNAME chase runs for at most 15 iterations
(`for count in range(0, 15)`); a dead end with raise_on_no_answer unset
leaves the state unchanged and merely burns iterations, which the
embedding shortcuts by recursing with the same state. -/

/-- One Answer value: the fields the claims read.  (response, nameserver,
port, rdtype and rdclass are stored unmodified by the constructor and are
omitted.) -/
structure AnswerV where
  qname : DName
  canonical_name : DName
  rrset : Option RRset
  expiration : Int
deriving DecidableEq

/-- Fold a TTL into min_ttl:
`if min_ttl == -1 or ttl < min_ttl: min_ttl = ttl`. -/
def foldTtl (minTtl : Int) (ttl : Nat) : Int :=
  if minTtl = -1 ∨ (ttl : Int) < minTtl then (ttl : Int) else minTtl

/-- The `for count in range(0, 15)` loop of Answer.__init__: look for the
requested rrset at the current qname; otherwise follow a CNAME; a dead
end raises NoAnswer when requested.  Returns (min_ttl, rrset, qname). -/
def chaseLoop (resp : Response) (rdclass rdtype : Nat) (rona : Bool) :
    Nat → DName → Int → Except PyErr (Int × Option RRset × DName)
  | 0, qname, minTtl => .ok (minTtl, none, qname)
  | fuel + 1, qname, minTtl =>
    match findRRset resp.answer qname rdclass rdtype with
    | some rrset => .ok (foldTtl minTtl rrset.ttl, some rrset, qname)
    | none =>
      if rdtype ≠ rtCNAME then
        match findRRset resp.answer qname rdclass rtCNAME with
        | some crrset =>
          let qname' := (crrset.targets.head?).getD qname
          chaseLoop resp rdclass rdtype rona fuel qname' (foldTtl minTtl crrset.ttl)
        | none =>
          if rona then .error .noAnswer
          else chaseLoop resp rdclass rdtype rona fuel qname minTtl
      else
        if rona then .error .noAnswer
        else chaseLoop resp rdclass rdtype rona fuel qname minTtl

/-- The SOA contribution to min_ttl: fold the rrset TTL, then
`if srrset[0].minimum < min_ttl: min_ttl = srrset[0].minimum`. -/
def soaFold (minTtl : Int) (srrset : RRset) : Int :=
  let m := foldTtl minTtl srrset.ttl
  if (srrset.minimum : Int) < m then (srrset.minimum : Int) else m

/-- The `while 1` SOA walk of Answer.__init__: find a SOA rrset in the
authority section at qname or an ancestor; fold its TTL and minimum into
min_ttl.  parent() raises NoParent (ending the walk) on the root and the
empty name, and drops the leftmost label otherwise. -/
def soaLoop (resp : Response) (rdclass : Nat) : DName → Int → Int
  | [], minTtl =>
    match findRRset resp.authority [] rdclass rtSOA with
    | some srrset => soaFold minTtl srrset
    | none => minTtl
  | x :: xs, minTtl =>
    match findRRset resp.authority (x :: xs) rdclass rtSOA with
    | some srrset => soaFold minTtl srrset
    | none =>
      if (x :: xs : DName) = dnsRoot then minTtl
      else soaLoop resp rdclass xs minTtl

/-- Answer.__init__: runs the CNAME chase, raises NoAnswer when no rrset
was found and raise_on_no_answer is set, otherwise computes the negative
TTL from the authority SOA walk, and sets
`expiration = now + min_ttl`. -/
def answerInit (now : Int) (qname : DName) (rdtype rdclass : Nat)
    (resp : Response) (rona : Bool) : Except PyErr AnswerV :=
  match chaseLoop resp rdclass rdtype rona 15 qname (-1) with
  | .error e => .error e
  | .ok (minTtl, rrset, qname') =>
    match rrset with
    | none =>
      if rona then .error .noAnswer
      else .ok { qname := qname, canonical_name := qname', rrset := none,
                 expiration := now + soaLoop resp rdclass qname' minTtl }
    | some rr =>
      .ok { qname := qname, canonical_name := qname', rrset := some rr,
            expiration := now + minTtl }

/-! ### Simple cache (class Cache)

The lock is a no-op in a sequential model.  `time.time()` is passed in as
`now`; the code re-reads the clock inside _maybe_clean, which the model
collapses to the single instant `now`. -/

/-- Cache keys: (dns.name.Name, rdtype, rdclass). -/
abbrev CacheKey := DName × Nat × Nat

/-- The simple thread-safe cache: data dict, cleaning interval and the
next-cleaning deadline. -/
structure Cache where
  data : List (CacheKey × AnswerV)
  cleaning_interval : Int
  next_cleaning : Int
deriving DecidableEq

/-- Cache._maybe_clean: once the deadline is reached, delete every entry
whose expiration has passed and reset the deadline. -/
def Cache.maybeClean (c : Cache) (now : Int) : Cache :=
  if c.next_cleaning ≤ now then
    { c with
      data := c.data.filter (fun e => decide (¬ e.2.expiration ≤ now)),
      next_cleaning := now + c.cleaning_interval }
  else c

/-- Cache.get: clean if due, then return the entry unless it is absent
or stale.  Returns the value and the updated cache state. -/
def Cache.get (c : Cache) (now : Int) (key : CacheKey) :
    Option AnswerV × Cache :=
  let c := c.maybeClean now
  match dlookup c.data key with
  | none => (none, c)
  | some v => if v.expiration ≤ now then (none, c) else (some v, c)

/-- Cache.put: clean if due, then assign. -/
def Cache.put (c : Cache) (now : Int) (key : CacheKey) (v : AnswerV) : Cache :=
  let c := c.maybeClean now
  { c with data := dinsert c.data key v }

/-! ### LRU cache (class LRUCache)

The circular doubly-linked recency list through the sentinel is embedded
as a plain list ordered from sentinel.next (most recently used) to
sentinel.prev (the eviction victim); the data map is the set of keys on
that list.  node.unlink() is List.eraseP on the key,
node.link_after(sentinel) is consing at the front, and the eviction
`node = self.sentinel.prev; node.unlink()` drops the last element. -/

/-- LRUCache state: the recency list (most recent first) and max_size. -/
structure LRUCache where
  entries : List (CacheKey × AnswerV)
  max_size : Nat
deriving DecidableEq

/-- LRUCache.set_max_size: clamp values below one to one. -/
def setMaxSize (n : Nat) : Nat := if n < 1 then 1 else n

/-- LRUCache.__init__. -/
def LRUCache.init (n : Nat) : LRUCache := { entries := [], max_size := setMaxSize n }

/-- The `while len(self.data) >= self.max_size` eviction loop of
LRUCache.put: repeatedly drop the node just before the sentinel (the last
list element).  Fuel makes the recursion structural; since every
iteration drops exactly one element, fuel equal to the initial length
never runs out before the loop condition fails.  (The `length ≠ 0`
conjunct is vacuous under the max_size ≥ 1 clamp, exactly as the Python
loop cannot run on an empty map then.) -/
def evictFuel (maxSize : Nat) : Nat → List (CacheKey × AnswerV) →
    List (CacheKey × AnswerV)
  | 0, entries => entries
  | fuel + 1, entries =>
    if maxSize ≤ entries.length ∧ entries.length ≠ 0 then
      evictFuel maxSize fuel entries.dropLast
    else entries

def evictLoop (maxSize : Nat) (entries : List (CacheKey × AnswerV)) :
    List (CacheKey × AnswerV) :=
  evictFuel maxSize entries.length entries

/-- LRUCache.get: locate the node; unlink it; if stale, delete it from
the map and return none; otherwise splice it just after the sentinel and
return its value. -/
def LRUCache.get (c : LRUCache) (now : Int) (key : CacheKey) :
    Option AnswerV × LRUCache :=
  match c.entries.find? (fun e => decide (e.1 = key)) with
  | none => (none, c)
  | some kv =>
    let entries := c.entries.eraseP (fun e => decide (e.1 = key))
    if kv.2.expiration ≤ now then (none, { c with entries := entries })
    else (some kv.2, { c with entries := kv :: entries })

/-- LRUCache.put: remove any old node with this key, evict while the map
is at capacity, then insert the new node just after the sentinel. -/
def LRUCache.put (c : LRUCache) (key : CacheKey) (v : AnswerV) : LRUCache :=
  let entries := c.entries.eraseP (fun e => decide (e.1 = key))
  let entries := evictLoop c.max_size entries
  { c with entries := (key, v) :: entries }

/-- One cache operation for reasoning about operation sequences. -/
inductive LRUOp where
  | opPut (k : CacheKey) (v : AnswerV)
  | opGet (now : Int) (k : CacheKey)

/-- Apply one operation (get discards the returned value). -/
def LRUCache.step (c : LRUCache) : LRUOp → LRUCache
  | .opPut k v => c.put k v
  | .opGet now k => (c.get now k).2

/-- Apply a sequence of operations. -/
def LRUCache.run (c : LRUCache) (ops : List LRUOp) : LRUCache :=
  ops.foldl LRUCache.step c

/-! ### NXDOMAIN merging (NXDOMAIN.__add__) -/

/-- The payload of a parametrized NXDOMAIN exception: the qnames list and
the qname-to-response dict. -/
structure NX where
  qnames : List DName
  responses : List (DName × Response)
deriving DecidableEq

/-- The body of the `for qname1 in e_nx.kwargs.get('qnames', [])` loop of
NXDOMAIN.__add__, iterating over b's qnames while updating a's copied
qnames list and responses dict. -/
def nxMergeLoop (bresp : List (DName × Response)) :
    List DName → List DName → List (DName × Response) →
    List DName × List (DName × Response)
  | [], qs0, rs0 => (qs0, rs0)
  | q :: rest, qs0, rs0 =>
    let qs0 := if q ∈ qs0 then qs0 else qs0 ++ [q]
    let rs0 := match dlookup bresp q with
               | some r => dinsert rs0 q r
               | none => rs0
    nxMergeLoop bresp rest qs0 rs0

/-- NXDOMAIN.__add__: augment by the results of another NXDOMAIN. -/
def nxAdd (a b : NX) : NX :=
  let p := nxMergeLoop b.responses b.qnames a.qnames a.responses
  { qnames := p.1, responses := p.2 }

/-- NXDOMAIN construction through DNSException._check_kwargs: an empty
qnames list raises AttributeError before the exception is built. -/
def mkNXDOMAIN (qnames : List DName) (responses : List (DName × Response)) : PyErr :=
  if qnames.isEmpty then .attributeError else .nxdomain qnames responses

/-! ### Candidate-name builder (Resolver._get_qnames_to_try) -/

/-- The resolver configuration fields the modelled operations read.
`rotate` is fixed to False (random.shuffle is outside a deterministic
embedding; no claim concerns rotation) and `cache` to None (the claims
about caches address the cache objects directly). -/
structure ResolverConf where
  search : List DName
  domain : DName
  ndots : Option Nat
  use_search_by_default : Bool
  nameservers : List String
  nameserver_ports : List (String × Nat)
  port : Nat
  retry_servfail : Bool
deriving DecidableEq

/-- Resolver._get_qnames_to_try: absolute names are tried as-is; a
relative name with more than one label first gets the as-absolute
candidate; then either each search suffix (when searching is on, the
search list is non-empty, and ndots is unset or satisfied) or the
configured domain is appended. -/
def getQnamesToTry (r : ResolverConf) (qname : DName) (search : Option Bool) :
    List DName :=
  let s := search.getD r.use_search_by_default
  if isAbsolute qname then [qname]
  else
    (if 1 < qname.length then [nameConcat qname dnsRoot] else []) ++
    (if s ∧ ¬ r.search.isEmpty then
      r.search.filterMap (fun suffix =>
        if r.ndots = none ∨ r.ndots.any (fun d => d ≤ qname.length) then
          some (nameConcat qname suffix)
        else none)
    else [nameConcat qname r.domain])

/-! ### Resolution state machine (_Resolution)

The state carried by one logical lookup.  TSIG/EDNS/flags decoration of
the outgoing message and metatype rejection are not modelled (no claim
reads them); requests are the bare query triple.  backoff is a rational
number of seconds. -/

/-- The outgoing request: (qname, rdtype, rdclass) of make_query. -/
abbrev Request := DName × Nat × Nat

/-- _Resolution: the per-call resolution state, holding the resolver
configuration it reads. -/
structure Resolution where
  conf : ResolverConf
  qnames_to_try : List DName
  qnames : List DName
  rdtype : Nat
  rdclass : Nat
  tcp : Bool
  raise_on_no_answer : Bool
  nxdomain_responses : List (DName × Response)
  qname : DName
  nameservers : List String
  current_nameservers : List String
  errors : List ErrEntry
  nameserver : Option String
  port : Nat
  tcp_attempt : Bool
  retry_with_tcp : Bool
  request : Option Request
  backoff : Rat
deriving DecidableEq

/-- _Resolution.__init__ (with rotate False and no cache; the qname is
already a dns.name.Name and rdtype/rdclass are non-meta integers). -/
def mkResolution (conf : ResolverConf) (qname : DName) (rdtype rdclass : Nat)
    (tcp rona : Bool) (search : Option Bool) : Resolution :=
  let toTry := getQnamesToTry conf qname search
  { conf := conf, qnames_to_try := toTry, qnames := toTry,
    rdtype := rdtype, rdclass := rdclass, tcp := tcp,
    raise_on_no_answer := rona, nxdomain_responses := [],
    qname := [], nameservers := [], current_nameservers := [],
    errors := [], nameserver := none, port := 0, tcp_attempt := false,
    retry_with_tcp := false, request := none, backoff := 0 }

/-- _Resolution.next_request: when the candidate list is exhausted,
raise NXDOMAIN over everything tried; otherwise pop the next candidate
from the END of the list (`self.qnames.pop()`), build the request and
reset the per-qname nameserver state.  (The resolver cache is None in the
modelled configuration, so the cache consultation is a no-op.) -/
def Resolution.nextRequest (s : Resolution) :
    Except PyErr ((Option Request × Option AnswerV) × Resolution) :=
  match pyPop s.qnames with
  | none => .error (mkNXDOMAIN s.qnames_to_try s.nxdomain_responses)
  | some (qname, rest) =>
    let request : Request := (qname, s.rdtype, s.rdclass)
    .ok ((some request, none),
      { s with qnames := rest, qname := qname,
               nameservers := s.conf.nameservers,
               current_nameservers := s.conf.nameservers,
               errors := [], nameserver := none, tcp_attempt := false,
               retry_with_tcp := false, request := some request,
               backoff := (1 : Rat) / 10 })

/-- What next_nameserver returns: the TCP-retry branch builds a 3-tuple
(the backoff component is missing), the normal branch a 4-tuple. -/
inductive NsChoice where
  | three (ns : String) (port : Nat) (tcp : Bool)
  | four (ns : String) (port : Nat) (tcp : Bool) (backoff : Rat)
deriving DecidableEq

/-- Python `min` on the backoff values. -/
def pyMin (a b : Rat) : Rat := if a ≤ b then a else b

/-- _Resolution.next_nameserver: on a pending TCP retry, keep the same
nameserver, mark the attempt TCP, clear the flag and return the 3-tuple
`(self.nameserver, self.port, True)`.  Otherwise refill the sweep list
when empty (raising NoNameservers when the pool is drained, and emitting
the doubled-and-capped backoff), then pop the tail of
current_nameservers and resolve its port. -/
def Resolution.nextNameserver (s : Resolution) :
    Except PyErr (NsChoice × Resolution) :=
  if s.retry_with_tcp then
    match s.nameserver with
    | none => .error .assertionError
    | some ns =>
      .ok (.three ns s.port true,
        { s with tcp_attempt := true, retry_with_tcp := false })
  else
    let refill := s.current_nameservers.isEmpty
    if refill ∧ s.nameservers.isEmpty then
      .error (.noNameservers s.errors)
    else
      let backoff : Rat := if refill then s.backoff else 0
      let s := if refill then
                 { s with current_nameservers := s.nameservers,
                          backoff := pyMin (s.backoff * 2) 2 }
               else s
      match pyPop s.current_nameservers with
      | none => .error .indexError
      | some (ns, rest) =>
        let port := (dlookup s.conf.nameserver_ports ns).getD s.conf.port
        .ok (.four ns port s.tcp backoff,
          { s with current_nameservers := rest, nameserver := some ns,
                   port := port, tcp_attempt := s.tcp })

/-- The 4-way unpacking
`(nameserver, port, tcp, backoff) = resolution.next_nameserver()` in the
driver loop of Resolver.resolve: a 3-tuple raises ValueError. -/
def driverUnpack : NsChoice → Except PyErr (String × Nat × Bool × Rat)
  | .four ns port tcp backoff => .ok (ns, port, tcp, backoff)
  | .three _ _ _ => .error .valueError

/-- `self.nameservers.remove(self.nameserver)`: remove the first
occurrence.  (Python raises ValueError when the element is absent; the
claims hypothesize the current nameserver is in the pool, where erase
agrees with remove.) -/
def removeCurrent (pool : List String) : Option String → List String
  | some ns => pool.erase ns
  | none => pool

/-- The error path of _Resolution.query_result: append the attempt to
the errors log; a wire-format error, short read or not-implemented
condition drops the current nameserver; truncation drops it on a TCP
attempt and arms retry_with_tcp on a UDP attempt. -/
def applyQueryError (s : Resolution) (e : QueryErr) : Resolution :=
  let s := { s with errors :=
    s.errors ++ [⟨s.nameserver, s.tcp_attempt, s.port, .pyex e, none⟩] }
  if e = .formError ∨ e = .eofError ∨ e = .notImplemented then
    { s with nameservers := removeCurrent s.nameservers s.nameserver }
  else if e = .truncated then
    if s.tcp_attempt then
      { s with nameservers := removeCurrent s.nameservers s.nameserver }
    else { s with retry_with_tcp := true }
  else s

/-- _Resolution.query_result.  With an error: log it, drop broken
nameservers (wire-format error / short read / not implemented, or
truncation over TCP), arm the TCP retry on truncation over UDP, and
continue.  With a response: dispatch on the rcode — NOERROR builds the
Answer (the resolver cache is None in the modelled configuration, so the
cache store is a no-op), NXDOMAIN records the response and ends the inner
loop, YXDOMAIN raises (the errors entry Python appends just before
raising dies with the discarded _Resolution and is not modelled),
anything else logs, drops the server unless it answered SERVFAIL and
retry_servfail is set, and continues. -/
def Resolution.queryResult (s : Resolution) (now : Int)
    (response : Option Response) (ex : Option QueryErr) :
    Except PyErr ((Option AnswerV × Bool) × Resolution) :=
  match ex with
  | some e => .ok ((none, false), applyQueryError s e)
  | none =>
    match response with
    | none => .error .assertionError
    | some resp =>
      if resp.rcode = rcodeNOERROR then
        match answerInit now s.qname s.rdtype s.rdclass resp s.raise_on_no_answer with
        | .error e => .error e
        | .ok answer => .ok ((some answer, true), s)
      else if resp.rcode = rcodeNXDOMAIN then
        .ok ((none, true),
          { s with nxdomain_responses := dinsert s.nxdomain_responses s.qname resp })
      else if resp.rcode = rcodeYXDOMAIN then
        .error .yxdomain
      else
        let s :=
          if resp.rcode ≠ rcodeSERVFAIL ∨ ¬ s.conf.retry_servfail then
            { s with nameservers := removeCurrent s.nameservers s.nameserver }
          else s
        .ok ((none, false),
          { s with errors := s.errors ++
            [⟨s.nameserver, s.tcp_attempt, s.port, .rcodeText resp.rcode, some resp⟩] })

/-! ### Driver loop (Resolver.resolve)

The transport is injected as a pure function from the attempt parameters
to a response.  Fuel bounds the two nested while-loops; the scenarios
proved below terminate well within the supplied fuel, so fuel exhaustion
(returning `.ok none`) never occurs there. -/

/-- Outcome of one inner sweep. -/
inductive InnerOut where
  | answerOut (a : AnswerV)
  | nextQname (s : Resolution)
  | fuelOut
deriving DecidableEq

/-- The inner `while not done` loop of Resolver.resolve: pick a
nameserver, unpack the 4-tuple, dispatch through the transport and feed
the outcome to query_result. -/
def innerLoop (now : Int) (transport : Request → String → Nat → Bool → Response) :
    Nat → Resolution → Request → Except PyErr InnerOut
  | 0, _, _ => .ok .fuelOut
  | fuel + 1, s, req =>
    match s.nextNameserver with
    | .error e => .error e
    | .ok (choice, s) =>
      match driverUnpack choice with
      | .error e => .error e
      | .ok (ns, port, tcp, _backoff) =>
        let resp := transport req ns port tcp
        match s.queryResult now (some resp) none with
        | .error e => .error e
        | .ok ((answer, done), s) =>
          match answer with
          | some a => .ok (.answerOut a)
          | none =>
            if done then .ok (.nextQname s)
            else innerLoop now transport fuel s req

/-- The outer loop of Resolver.resolve: advance to the next candidate
qname and run the inner sweep. -/
def resolveLoop (now : Int) (transport : Request → String → Nat → Bool → Response) :
    Nat → Resolution → Except PyErr (Option AnswerV)
  | 0, _ => .ok none
  | fuel + 1, s =>
    match s.nextRequest with
    | .error e => .error e
    | .ok ((request, answer), s) =>
      match answer with
      | some a => .ok (some a)
      | none =>
        match request with
        | none => .ok none
        | some req =>
          match innerLoop now transport (fuel + 1) s req with
          | .error e => .error e
          | .ok (.answerOut a) => .ok (some a)
          | .ok (.nextQname s) => resolveLoop now transport fuel s
          | .ok .fuelOut => .ok none

/-! ## Helper lemmas -/

theorem dlookup_dinsert {K V : Type} [DecidableEq K] (l : List (K × V)) (k : K) (v : V)
    (k' : K) :
    dlookup (dinsert l k v) k' = if k' = k then some v else dlookup l k' := by
  induction l with
  | nil =>
    by_cases h : k' = k
    · subst h; simp [dinsert, dlookup]
    · have h' : ¬ k = k' := fun hk => h hk.symm
      simp [dinsert, dlookup, h, h']
  | cons e es ih =>
    by_cases he : e.1 = k
    · by_cases h : k' = k
      · subst h; simp [dinsert, dlookup, he]
      · have h' : ¬ k = k' := fun hk => h hk.symm
        have he' : ¬ e.1 = k' := fun hk => h' (he.symm.trans hk)
        simp [dinsert, dlookup, he, h, h', he']
    · by_cases h : k' = k
      · subst h; simp [dinsert, dlookup, he, ih]
      · simp [dinsert, dlookup, he, h, ih]

theorem dlookup_some_mem {K V : Type} [DecidableEq K] (l : List (K × V)) (k : K) (v : V)
    (h : dlookup l k = some v) : (k, v) ∈ l := by
  induction l with
  | nil => cases h
  | cons e es ih =>
    unfold dlookup at h
    split at h
    · rename_i he
      injection h with h
      cases e with
      | mk a b =>
        simp only at he h
        subst he
        subst h
        exact List.mem_cons_self _ _
    · exact List.mem_cons_of_mem e (ih h)

/-! ## Claim C1: Answer expiration -/

theorem foldTtl_cases (m : Int) (t : Nat) (hm : m = -1 ∨ 0 ≤ m) :
    foldTtl m t = -1 ∨ 0 ≤ foldTtl m t := by
  unfold foldTtl
  split
  · right; omega
  · exact hm

theorem chaseLoop_min (resp : Response) (rdclass rdtype : Nat) (rona : Bool) :
    ∀ (fuel : Nat) (qname : DName) (m : Int), (m = -1 ∨ 0 ≤ m) →
    ∀ r, chaseLoop resp rdclass rdtype rona fuel qname m = .ok r →
      r.1 = -1 ∨ 0 ≤ r.1 := by
  intro fuel
  induction fuel with
  | zero =>
    intro qname m hm r hr
    simp only [chaseLoop, Except.ok.injEq] at hr
    rw [← hr]
    exact hm
  | succ fuel ih =>
    intro qname m hm r hr
    simp only [chaseLoop] at hr
    split at hr
    · simp only [Except.ok.injEq] at hr
      rw [← hr]
      exact foldTtl_cases m _ hm
    · split at hr
      · split at hr
        · exact ih _ _ (foldTtl_cases m _ hm) r hr
        · split at hr
          · cases hr
          · exact ih _ _ hm r hr
      · split at hr
        · cases hr
        · exact ih _ _ hm r hr

theorem soaFold_min (m : Int) (srrset : RRset) (hm : m = -1 ∨ 0 ≤ m) :
    soaFold m srrset = -1 ∨ 0 ≤ soaFold m srrset := by
  unfold soaFold
  dsimp only
  split
  · right; omega
  · exact foldTtl_cases m _ hm

theorem soaLoop_min (resp : Response) (rdclass : Nat) (qname : DName) (m : Int)
    (hm : m = -1 ∨ 0 ≤ m) :
    soaLoop resp rdclass qname m = -1 ∨ 0 ≤ soaLoop resp rdclass qname m := by
  induction qname with
  | nil =>
    unfold soaLoop
    split
    · exact soaFold_min m _ hm
    · exact hm
  | cons x xs ih =>
    unfold soaLoop
    split
    · exact soaFold_min m _ hm
    · split
      · exact hm
      · exact ih

/-- Claim C1 (counterexample): an Answer built with raise_on_no_answer
unset from a response with no matching rrset, no CNAME and no SOA leaves
min_ttl at -1, so at creation time 100 the expiration is 99 — in the
past, contradicting the claimed expiration = t + 0 ≥ t. -/
theorem answer_expiration_counterexample :
    answerInit 100 [lHost, rootLabel] rtA rcIN
        { answer := [], authority := [], rcode := 0 } false =
      .ok { qname := [lHost, rootLabel], canonical_name := [lHost, rootLabel],
            rrset := none, expiration := 99 } ∧
    (99 : Int) < 100 :=
  ⟨rfl, by decide⟩

/-- Claim C1 (amended): for every Answer constructed at creation time t,
expiration = t + min_ttl, where min_ttl is -1 — not zero — when no TTL
was folded in (no matching rrset, no CNAME traversed, no SOA found up to
the root); hence expiration = t - 1 in that case, and expiration ≥ t
whenever any TTL was folded in. -/
theorem answer_expiration_amended (now : Int) (qname : DName) (rdtype rdclass : Nat)
    (resp : Response) (rona : Bool) (a : AnswerV)
    (h : answerInit now qname rdtype rdclass resp rona = .ok a) :
    a.expiration = now - 1 ∨ now ≤ a.expiration := by
  unfold answerInit at h
  cases hc : chaseLoop resp rdclass rdtype rona 15 qname (-1) with
  | error e => rw [hc] at h; cases h
  | ok r =>
    rw [hc] at h
    obtain ⟨m, rrset, qn⟩ := r
    have hm : m = -1 ∨ 0 ≤ m :=
      chaseLoop_min resp rdclass rdtype rona 15 qname (-1) (Or.inl rfl) _ hc
    cases rrset with
    | none =>
      simp only at h
      split at h
      · cases h
      · simp only [Except.ok.injEq] at h
        rw [← h]
        have := soaLoop_min resp rdclass qn m hm
        simp only
        omega
    | some rr =>
      simp only [Except.ok.injEq] at h
      rw [← h]
      simp only
      omega

/-- The concrete query name used for witnesses. -/
def c1qname : DName := [lHost, rootLabel]

/-- A response carrying one A record with TTL 60 at the query name. -/
def c1rrsetA : RRset :=
  { name := c1qname, rdclass := rcIN, rdtype := rtA, ttl := 60,
    targets := [], minimum := 0 }

def c1respA : Response := { answer := [c1rrsetA], authority := [], rcode := 0 }

def c1answerA : AnswerV :=
  { qname := c1qname, canonical_name := c1qname, rrset := some c1rrsetA,
    expiration := 160 }

/-- Witness for the amended C1 theorem: a concrete Answer built from an A
record with TTL 60 at creation time 100. -/
theorem answer_expiration_amended_witness :
    answerInit 100 c1qname rtA rcIN c1respA true = .ok c1answerA ∧
    (c1answerA.expiration = 100 - 1 ∨ (100 : Int) ≤ c1answerA.expiration) :=
  ⟨rfl, answer_expiration_amended 100 c1qname rtA rcIN c1respA true c1answerA rfl⟩

/-! ## Claim C4: cache freshness -/

/-- Claim C4: neither Cache.get nor LRUCache.get ever returns an Answer
whose expiration is less than or equal to the current time; a stale
stored entry makes get return none. -/
theorem cache_get_fresh :
    (∀ (c : Cache) (now : Int) (key : CacheKey) (v : AnswerV),
      (c.get now key).1 = some v → now < v.expiration) ∧
    (∀ (c : LRUCache) (now : Int) (key : CacheKey) (v : AnswerV),
      (c.get now key).1 = some v → now < v.expiration) := by
  constructor
  · intro c now key v h
    unfold Cache.get at h
    dsimp only at h
    cases hdl : dlookup (c.maybeClean now).data key with
    | none => rw [hdl] at h; cases h
    | some w =>
      rw [hdl] at h
      dsimp only at h
      split at h
      · cases h
      · rename_i hexp
        injection h with h
        subst h
        omega
  · intro c now key v h
    unfold LRUCache.get at h
    cases hdl : c.entries.find? (fun e => decide (e.1 = key)) with
    | none => rw [hdl] at h; cases h
    | some kv =>
      rw [hdl] at h
      dsimp only at h
      split at h
      · cases h
      · rename_i hexp
        injection h with h
        subst h
        omega

def c4key : CacheKey := ([lA, rootLabel], rtA, rcIN)

def c4ans : AnswerV :=
  { qname := [lA, rootLabel], canonical_name := [lA, rootLabel],
    rrset := none, expiration := 50 }

def c4cache : Cache :=
  { data := [(c4key, c4ans)], cleaning_interval := 300, next_cleaning := 1000 }

def c4lru : LRUCache := { entries := [(c4key, c4ans)], max_size := 5 }

/-- Witness for C4: both caches return the fresh concrete entry, whose
expiration lies in the future. -/
theorem cache_get_fresh_witness :
    ((c4cache.get 10 c4key).1 = some c4ans ∧ (10 : Int) < c4ans.expiration) ∧
    ((c4lru.get 10 c4key).1 = some c4ans ∧ (10 : Int) < c4ans.expiration) :=
  ⟨⟨rfl, cache_get_fresh.1 c4cache 10 c4key c4ans rfl⟩,
   ⟨rfl, cache_get_fresh.2 c4lru 10 c4key c4ans rfl⟩⟩

/-! ## Claim C10: stale entries, frame conditions -/

/-- Claim C10: when the simple Cache's periodic-cleaning deadline has not
been reached, a get that finds a stale entry returns none and leaves the
whole cache state — in particular the data map — unchanged; the LRUCache,
by contrast, deletes the stale node from its map during the same get. -/
theorem stale_entry_frame :
    (∀ (c : Cache) (now : Int) (key : CacheKey) (v : AnswerV),
      now < c.next_cleaning → dlookup c.data key = some v →
      v.expiration ≤ now → c.get now key = (none, c)) ∧
    (∀ (c : LRUCache) (now : Int) (key : CacheKey) (kv : CacheKey × AnswerV),
      c.entries.find? (fun e => decide (e.1 = key)) = some kv →
      kv.2.expiration ≤ now →
      (c.get now key).1 = none ∧
      (c.get now key).2.entries =
        c.entries.eraseP (fun e => decide (e.1 = key))) := by
  constructor
  · intro c now key v hdl hlook hstale
    have hclean : c.maybeClean now = c := by
      unfold Cache.maybeClean
      rw [if_neg (by omega)]
    unfold Cache.get
    dsimp only
    rw [hclean, hlook]
    dsimp only
    rw [if_pos hstale]
  · intro c now key kv hfind hstale
    unfold LRUCache.get
    rw [hfind]
    dsimp only
    rw [if_pos hstale]
    exact ⟨rfl, rfl⟩

def c10ans : AnswerV :=
  { qname := [lA, rootLabel], canonical_name := [lA, rootLabel],
    rrset := none, expiration := 5 }

def c10cache : Cache :=
  { data := [(c4key, c10ans)], cleaning_interval := 300, next_cleaning := 1000 }

def c10lru : LRUCache := { entries := [(c4key, c10ans)], max_size := 5 }

/-- Witness for C10: a stale entry (expiration 5, now 10) before the
cleaning deadline (1000): the simple cache returns none and is unchanged;
the LRU cache drops the entry from its map. -/
theorem stale_entry_frame_witness :
    c10cache.get 10 c4key = (none, c10cache) ∧
    ((c10lru.get 10 c4key).1 = none ∧
      (c10lru.get 10 c4key).2.entries =
        c10lru.entries.eraseP (fun e => decide (e.1 = c4key))) :=
  ⟨stale_entry_frame.1 c10cache 10 c4key c10ans (by decide) rfl (by decide),
   stale_entry_frame.2 c10lru 10 c4key (c4key, c10ans) rfl (by decide)⟩

/-! ## Claim C3: LRU bound and eviction order -/

theorem evictFuel_length_lt (m : Nat) (hm : 1 ≤ m) :
    ∀ (fuel : Nat) (l : List (CacheKey × AnswerV)), l.length ≤ fuel →
    (evictFuel m fuel l).length < m := by
  intro fuel
  induction fuel with
  | zero =>
    intro l hl
    unfold evictFuel
    omega
  | succ fuel ih =>
    intro l hl
    unfold evictFuel
    split
    · apply ih
      rw [List.length_dropLast]
      omega
    · rename_i h
      rw [Classical.not_and_iff_or_not_not] at h
      omega

theorem evictLoop_length_lt (m : Nat) (hm : 1 ≤ m)
    (l : List (CacheKey × AnswerV)) : (evictLoop m l).length < m :=
  evictFuel_length_lt m hm l.length l (le_refl _)

theorem evictFuel_of_lt (m : Nat) :
    ∀ (fuel : Nat) (l : List (CacheKey × AnswerV)), l.length < m →
    evictFuel m fuel l = l := by
  intro fuel
  cases fuel with
  | zero => intro l _; rfl
  | succ fuel =>
    intro l hl
    unfold evictFuel
    rw [if_neg]
    intro hc
    omega

theorem evictLoop_eq_dropLast (m : Nat) (hm : 1 ≤ m)
    (l : List (CacheKey × AnswerV)) (hl : l.length = m) :
    evictLoop m l = l.dropLast := by
  unfold evictLoop
  rw [hl]
  cases m with
  | zero => omega
  | succ m' =>
    unfold evictFuel
    rw [if_pos ⟨le_of_eq hl.symm, by omega⟩]
    apply evictFuel_of_lt
    rw [List.length_dropLast]
    omega

theorem lru_put_inv (c : LRUCache) (hm : 1 ≤ c.max_size) (key : CacheKey)
    (v : AnswerV) :
    (c.put key v).entries.length ≤ c.max_size ∧
    (c.put key v).max_size = c.max_size := by
  unfold LRUCache.put
  dsimp only
  refine ⟨?_, rfl⟩
  have := evictLoop_length_lt c.max_size hm
    (c.entries.eraseP (fun e => decide (e.1 = key)))
  simp only [List.length_cons]
  omega

theorem lru_get_inv (c : LRUCache) (hlen : c.entries.length ≤ c.max_size)
    (now : Int) (key : CacheKey) :
    (c.get now key).2.entries.length ≤ c.max_size ∧
    (c.get now key).2.max_size = c.max_size := by
  unfold LRUCache.get
  cases hf : c.entries.find? (fun e => decide (e.1 = key)) with
  | none => exact ⟨hlen, rfl⟩
  | some kv =>
    dsimp only
    have hmem := List.mem_of_find?_eq_some hf
    have hp := List.find?_some hf
    have herase : (c.entries.eraseP (fun e => decide (e.1 = key))).length =
        c.entries.length - 1 := List.length_eraseP_of_mem hmem hp
    have hpos : 1 ≤ c.entries.length := List.length_pos_of_mem hmem
    split
    · constructor
      · dsimp only; omega
      · rfl
    · constructor
      · simp only [List.length_cons]; omega
      · rfl

theorem lru_step_inv (c : LRUCache) (hm : 1 ≤ c.max_size)
    (hlen : c.entries.length ≤ c.max_size) (op : LRUOp) :
    (c.step op).entries.length ≤ c.max_size ∧
    (c.step op).max_size = c.max_size := by
  cases op with
  | opPut k v => exact lru_put_inv c hm k v
  | opGet now k => exact lru_get_inv c hlen now k

theorem lru_run_inv (ops : List LRUOp) :
    ∀ (c : LRUCache), 1 ≤ c.max_size → c.entries.length ≤ c.max_size →
    (c.run ops).entries.length ≤ c.max_size ∧
    (c.run ops).max_size = c.max_size := by
  induction ops with
  | nil => intro c _ hlen; exact ⟨hlen, rfl⟩
  | cons op rest ih =>
    intro c hm hlen
    have hstep := lru_step_inv c hm hlen op
    have hr : c.run (op :: rest) = (c.step op).run rest := rfl
    rw [hr]
    have hm' : 1 ≤ (c.step op).max_size := by rw [hstep.2]; exact hm
    have hlen' : (c.step op).entries.length ≤ (c.step op).max_size := by
      rw [hstep.2]; exact hstep.1
    have hrest := ih (c.step op) hm' hlen'
    rw [hstep.2] at hrest
    exact hrest

theorem setMaxSize_pos (n : Nat) : 1 ≤ setMaxSize n := by
  unfold setMaxSize
  split <;> omega

/-- Claim C3: starting from an LRUCache of requested capacity N, after
any sequence of put and get operations the number of live entries is at
most the clamped capacity, and a put whose key is absent while the cache
is full evicts exactly the node just before the sentinel — the last
element of the recency list, i.e. the entry whose most recent get or put
is earliest — and inserts the new node at the front. -/
theorem lru_bound_and_eviction (N : Nat) (ops : List LRUOp) (key : CacheKey)
    (v : AnswerV) :
    ((LRUCache.init N).run ops).entries.length ≤ setMaxSize N ∧
    (((LRUCache.init N).run ops).entries.length =
        ((LRUCache.init N).run ops).max_size →
      (∀ e ∈ ((LRUCache.init N).run ops).entries, e.1 ≠ key) →
      (((LRUCache.init N).run ops).put key v).entries =
        (key, v) :: ((LRUCache.init N).run ops).entries.dropLast) := by
  have hinit : (LRUCache.init N).max_size = setMaxSize N := rfl
  have hrun := lru_run_inv ops (LRUCache.init N)
    (hinit ▸ setMaxSize_pos N) (by simp [LRUCache.init])
  rw [hinit] at hrun
  refine ⟨hrun.1, ?_⟩
  intro hfull hfresh
  unfold LRUCache.put
  dsimp only
  have hnone : ((LRUCache.init N).run ops).entries.eraseP
      (fun e => decide (e.1 = key)) = ((LRUCache.init N).run ops).entries := by
    apply List.eraseP_of_forall_not
    intro a ha
    simp only [decide_eq_true_eq]
    exact hfresh a ha
  rw [hnone]
  rw [evictLoop_eq_dropLast _ _ _ ?hl]
  · rw [hrun.2]
    exact setMaxSize_pos N
  case hl => rw [hfull]

def c3k1 : CacheKey := ([lA, rootLabel], rtA, rcIN)

def c3k2 : CacheKey := ([lB, rootLabel], rtA, rcIN)

def c3k3 : CacheKey := ([lC, rootLabel], rtA, rcIN)

def c3v : AnswerV :=
  { qname := [lA, rootLabel], canonical_name := [lA, rootLabel],
    rrset := none, expiration := 50 }

def c3ops : List LRUOp := [.opPut c3k1 c3v, .opPut c3k2 c3v]

/-- Witness for C3: a capacity-2 LRU filled by two puts stays within
bound, and a third put with a fresh key evicts the oldest entry (the
last list element) while inserting the new one at the front. -/
theorem lru_bound_and_eviction_witness :
    ((LRUCache.init 2).run c3ops).entries.length ≤ setMaxSize 2 ∧
    (((LRUCache.init 2).run c3ops).put c3k3 c3v).entries =
      (c3k3, c3v) :: ((LRUCache.init 2).run c3ops).entries.dropLast :=
  ⟨(lru_bound_and_eviction 2 c3ops c3k3 c3v).1,
   (lru_bound_and_eviction 2 c3ops c3k3 c3v).2 (by decide) (by decide)⟩

/-! ## Claim C5: candidate ordering -/

/-- Claim C5: the candidate list built by _get_qnames_to_try is [qname]
for an absolute qname; [qname+root, qname+domain] for a relative qname
with more than one label and search disabled; [qname+domain] for a
one-label relative qname with search disabled; and, with search enabled,
a non-empty search list and ndots unset or satisfied, the qname+root
candidate (when labels > 1) followed by qname+suffix for each search
suffix in declared order. -/
theorem qnames_to_try_cases (r : ResolverConf) (qname : DName)
    (search : Option Bool) :
    (isAbsolute qname = true → getQnamesToTry r qname search = [qname]) ∧
    (isAbsolute qname = false →
      search.getD r.use_search_by_default = false →
      (1 < qname.length →
        getQnamesToTry r qname search =
          [nameConcat qname dnsRoot, nameConcat qname r.domain]) ∧
      (qname.length = 1 →
        getQnamesToTry r qname search = [nameConcat qname r.domain])) ∧
    (isAbsolute qname = false →
      search.getD r.use_search_by_default = true → r.search ≠ [] →
      (r.ndots = none ∨ r.ndots.any (fun d => d ≤ qname.length)) →
      getQnamesToTry r qname search =
        (if 1 < qname.length then [nameConcat qname dnsRoot] else []) ++
        r.search.map (nameConcat qname)) := by
  refine ⟨?_, ?_, ?_⟩
  · intro habs
    unfold getQnamesToTry
    rw [if_pos habs]
  · intro habs hs
    constructor
    · intro hlen
      unfold getQnamesToTry
      rw [if_neg (by simp [habs]), if_pos hlen, if_neg (by simp [hs])]
      rfl
    · intro hlen
      unfold getQnamesToTry
      rw [if_neg (by simp [habs]), if_neg (by omega), if_neg (by simp [hs])]
      rfl
  · intro habs hs hne hnd
    unfold getQnamesToTry
    rw [if_neg (by simp [habs])]
    have hmap : ∀ l : List DName,
        List.filterMap (fun suffix =>
          if r.ndots = none ∨ r.ndots.any (fun d => d ≤ qname.length) then
            some (nameConcat qname suffix) else none) l =
        List.map (nameConcat qname) l := by
      intro l
      induction l with
      | nil => rfl
      | cons a t ih =>
        rw [List.filterMap_cons]
        rw [if_pos hnd]
        rw [ih, List.map_cons]
    congr 1
    rw [if_pos ⟨hs, fun hemp => hne (List.isEmpty_iff.mp hemp)⟩, hmap]

def c5conf : ResolverConf :=
  { search := [[lCorp, lExample, rootLabel], [lExample, rootLabel]],
    domain := [lExample, rootLabel], ndots := some 1,
    use_search_by_default := false, nameservers := [], nameserver_ports := [],
    port := 53, retry_servfail := false }

/-- Witness for C5: each of the four candidate-list cases evaluated on a
concrete configuration. -/
theorem qnames_to_try_cases_witness :
    getQnamesToTry c5conf [lHost, rootLabel] none = [[lHost, rootLabel]] ∧
    getQnamesToTry c5conf [lHost, lCorp] none =
      [nameConcat [lHost, lCorp] dnsRoot,
        nameConcat [lHost, lCorp] c5conf.domain] ∧
    getQnamesToTry c5conf [lHost] none = [nameConcat [lHost] c5conf.domain] ∧
    getQnamesToTry c5conf [lHost, lCorp] (some true) =
      (if 1 < ([lHost, lCorp] : DName).length then
        [nameConcat [lHost, lCorp] dnsRoot] else []) ++
      c5conf.search.map (nameConcat [lHost, lCorp]) :=
  ⟨(qnames_to_try_cases c5conf [lHost, rootLabel] none).1 (by decide),
   ((qnames_to_try_cases c5conf [lHost, lCorp] none).2.1 (by decide)
     (by decide)).1 (by decide),
   ((qnames_to_try_cases c5conf [lHost] none).2.1 (by decide)
     (by decide)).2 (by decide),
   (qnames_to_try_cases c5conf [lHost, lCorp] (some true)).2.2 (by decide)
     (by decide) (by decide) (by decide)⟩

/-! ## Claim C9: empty candidate list raises AttributeError -/

/-- Claim C9: for a one-label relative qname with search enabled, a
non-empty search list and ndots set above one, the candidate list is
empty, and next_request then raises AttributeError from the NXDOMAIN
constructor's qnames-must-be-non-empty check rather than a typed
resolver error. -/
theorem empty_candidates_attribute_error (conf : ResolverConf) (l : String)
    (sflag : Option Bool) (d : Nat) (tcp rona : Bool)
    (hl : l ≠ rootLabel) (hs : conf.search ≠ []) (hnd : conf.ndots = some d)
    (hd : 1 < d) (heff : sflag.getD conf.use_search_by_default = true) :
    getQnamesToTry conf [l] sflag = [] ∧
    (mkResolution conf [l] rtA rcIN tcp rona sflag).nextRequest =
      .error .attributeError := by
  have habs : isAbsolute [l] = false := by
    unfold isAbsolute
    simp [hl]
  have hq : getQnamesToTry conf [l] sflag = [] := by
    unfold getQnamesToTry
    rw [if_neg (by simp [habs])]
    rw [if_neg (by simp)]
    rw [if_pos ⟨heff, fun hemp => hs (List.isEmpty_iff.mp hemp)⟩]
    have hfm : ∀ ls : List DName,
        List.filterMap (fun suffix =>
          if conf.ndots = none ∨
              conf.ndots.any (fun dd => dd ≤ ([l] : DName).length) then
            some (nameConcat [l] suffix) else none) ls = [] := by
      intro ls
      induction ls with
      | nil => rfl
      | cons a t ih =>
        rw [List.filterMap_cons]
        rw [if_neg (by rw [hnd]; simp; omega)]
        exact ih
    rw [hfm]
    rfl
  refine ⟨hq, ?_⟩
  unfold Resolution.nextRequest mkResolution
  dsimp only
  rw [hq]
  rfl

def c9conf : ResolverConf :=
  { search := [[lCorp, lExample, rootLabel]], domain := [lExample, rootLabel],
    ndots := some 2, use_search_by_default := true, nameservers := [ns1],
    nameserver_ports := [], port := 53, retry_servfail := false }

/-- Witness for C9: a concrete one-label lookup under ndots = 2. -/
theorem empty_candidates_attribute_error_witness :
    getQnamesToTry c9conf [lHost] none = [] ∧
    (mkResolution c9conf [lHost] rtA rcIN false true none).nextRequest =
      .error .attributeError :=
  empty_candidates_attribute_error c9conf lHost none 2 false true
    (by decide) (by decide) rfl (by decide) (by decide)

/-! ## Claim C7: query_result error path -/

/-- Claim C7: query_result invoked with an error appends
(nameserver, tcp_attempt, port, error, none) to the errors log; a
wire-format error, short read or not-implemented condition removes the
current nameserver from the pool; a truncated UDP attempt sets
retry_with_tcp and leaves the pool unchanged while a truncated TCP
attempt removes the nameserver; and every error case returns
(none, continue). -/
theorem query_result_error_path (s : Resolution) (now : Int) (e : QueryErr)
    (ns : String) (hns : s.nameserver = some ns) (hmem : ns ∈ s.nameservers) :
    s.queryResult now none (some e) =
      .ok ((none, false), applyQueryError s e) ∧
    (applyQueryError s e).errors =
      s.errors ++ [⟨some ns, s.tcp_attempt, s.port, .pyex e, none⟩] ∧
    ((e = .formError ∨ e = .eofError ∨ e = .notImplemented) →
      (applyQueryError s e).nameservers = s.nameservers.erase ns ∧
      (applyQueryError s e).nameservers.length + 1 = s.nameservers.length) ∧
    (e = .truncated → s.tcp_attempt = true →
      (applyQueryError s e).nameservers = s.nameservers.erase ns ∧
      (applyQueryError s e).nameservers.length + 1 = s.nameservers.length) ∧
    (e = .truncated → s.tcp_attempt = false →
      (applyQueryError s e).retry_with_tcp = true ∧
      (applyQueryError s e).nameservers = s.nameservers) := by
  have hpos : 0 < s.nameservers.length := List.length_pos_of_mem hmem
  have hlen : (s.nameservers.erase ns).length = s.nameservers.length - 1 :=
    List.length_erase_of_mem hmem
  cases e <;>
    simp [Resolution.queryResult, applyQueryError, removeCurrent, hns] <;>
    try omega
  · cases htcp : s.tcp_attempt
    · simp [htcp]
    · simp [htcp]
      omega

def c7conf : ResolverConf :=
  { search := [], domain := [rootLabel], ndots := none,
    use_search_by_default := false, nameservers := [ns1, ns2],
    nameserver_ports := [], port := 53, retry_servfail := false }

def c7state : Resolution :=
  { conf := c7conf, qnames_to_try := [[lHost, rootLabel]], qnames := [],
    rdtype := rtA, rdclass := rcIN, tcp := false, raise_on_no_answer := true,
    nxdomain_responses := [], qname := [lHost, rootLabel],
    nameservers := [ns1, ns2], current_nameservers := [ns1],
    errors := [], nameserver := some ns2, port := 53, tcp_attempt := false,
    retry_with_tcp := false, request := some ([lHost, rootLabel], rtA, rcIN),
    backoff := 1 / 10 }

/-- Witness for C7: a concrete mid-sweep state hit by a truncated UDP
attempt (pool kept, retry armed) and by a wire-format error (server
dropped). -/
theorem query_result_error_path_witness :
    c7state.queryResult 0 none (some .truncated) =
      .ok ((none, false), applyQueryError c7state .truncated) ∧
    (applyQueryError c7state .truncated).retry_with_tcp = true ∧
    (applyQueryError c7state .truncated).nameservers = c7state.nameservers ∧
    (applyQueryError c7state .formError).nameservers =
      c7state.nameservers.erase ns2 := by
  have h1 := query_result_error_path c7state 0 .truncated ns2 rfl (by decide)
  have h2 := query_result_error_path c7state 0 .formError ns2 rfl (by decide)
  exact ⟨h1.1, (h1.2.2.2.2 rfl rfl).1, (h1.2.2.2.2 rfl rfl).2,
    (h2.2.2.1 (Or.inl rfl)).1⟩

/-! ## Claim C6: NXDOMAIN merging -/

theorem nxMergeLoop_qnames (bresp : List (DName × Response)) (l : List DName) :
    ∀ (qs0 : List DName) (rs0 : List (DName × Response)), l.Nodup →
    (nxMergeLoop bresp l qs0 rs0).1 =
      qs0 ++ l.filter (fun q => decide (q ∉ qs0)) := by
  induction l with
  | nil => intro qs0 rs0 _; simp [nxMergeLoop]
  | cons q rest ih =>
    intro qs0 rs0 hnd
    obtain ⟨hq_rest, hnd_rest⟩ := List.nodup_cons.mp hnd
    rw [List.filter_cons]
    by_cases hq : q ∈ qs0
    · simp only [nxMergeLoop, if_pos hq]
      rw [ih _ _ hnd_rest]
      simp [hq]
    · simp only [nxMergeLoop, if_neg hq]
      rw [ih _ _ hnd_rest]
      have hfil : rest.filter (fun x => decide (x ∉ qs0 ++ [q])) =
          rest.filter (fun x => decide (x ∉ qs0)) := by
        apply List.filter_congr
        intro x hx
        have hxq : x ≠ q := fun h => hq_rest (h ▸ hx)
        simp [List.mem_append, hxq]
      rw [hfil]
      simp [hq, List.append_assoc]

theorem nxMergeLoop_responses_stable (bresp : List (DName × Response))
    (l : List DName) :
    ∀ (qs0 : List DName) (rs0 : List (DName × Response)) (q : DName),
    q ∉ l → dlookup (nxMergeLoop bresp l qs0 rs0).2 q = dlookup rs0 q := by
  induction l with
  | nil => intro qs0 rs0 q _; rfl
  | cons q1 rest ih =>
    intro qs0 rs0 q hq
    have hq1 : q ≠ q1 := fun h => hq (h ▸ List.mem_cons_self q1 rest)
    have hqr : q ∉ rest := fun h => hq (List.mem_cons_of_mem q1 h)
    simp only [nxMergeLoop]
    cases hb : dlookup bresp q1 with
    | none => rw [ih _ _ q hqr]
    | some r =>
      rw [ih _ _ q hqr]
      rw [dlookup_dinsert]
      rw [if_neg hq1]

theorem nxMergeLoop_responses_none (bresp : List (DName × Response))
    (l : List DName) :
    ∀ (qs0 : List DName) (rs0 : List (DName × Response)) (q : DName),
    dlookup bresp q = none → dlookup (nxMergeLoop bresp l qs0 rs0).2 q =
      dlookup rs0 q := by
  induction l with
  | nil => intro qs0 rs0 q _; rfl
  | cons q1 rest ih =>
    intro qs0 rs0 q hb
    simp only [nxMergeLoop]
    cases hb1 : dlookup bresp q1 with
    | none => rw [ih _ _ q hb]
    | some r =>
      have hq1 : q ≠ q1 := fun h => by rw [h, hb1] at hb; cases hb
      rw [ih _ _ q hb]
      rw [dlookup_dinsert]
      rw [if_neg hq1]

theorem nxMergeLoop_responses_mem (bresp : List (DName × Response))
    (l : List DName) :
    ∀ (qs0 : List DName) (rs0 : List (DName × Response)) (q : DName)
      (r : Response), l.Nodup → q ∈ l → dlookup bresp q = some r →
    dlookup (nxMergeLoop bresp l qs0 rs0).2 q = some r := by
  induction l with
  | nil => intro qs0 rs0 q r _ hq _; cases hq
  | cons q1 rest ih =>
    intro qs0 rs0 q r hnd hq hb
    obtain ⟨hq1_rest, hnd_rest⟩ := List.nodup_cons.mp hnd
    simp only [nxMergeLoop]
    rcases List.mem_cons.mp hq with heq | hmem
    · subst heq
      rw [hb]
      rw [nxMergeLoop_responses_stable bresp rest _ _ q hq1_rest]
      rw [dlookup_dinsert]
      rw [if_pos rfl]
    · cases hb1 : dlookup bresp q1 with
      | none => exact ih _ _ q r hnd_rest hmem hb
      | some r1 => exact ih _ _ q r hnd_rest hmem hb

def c6r : Response := { answer := [], authority := [], rcode := rcodeNXDOMAIN }

def c6a : NX := { qnames := [[lA, rootLabel]], responses := [] }

def c6b : NX :=
  { qnames := [[lB, rootLabel]], responses := [([lC, rootLabel], c6r)] }

/-- Claim C6 (counterexample): with a = NXDOMAIN(qnames=[a.], responses={})
and b = NXDOMAIN(qnames=[b.], responses={c.: r}), b has a response for
c., yet (a + b).responses has no entry for c. — __add__ copies a response
only for qnames listed in b's qnames — refuting the claimed
(a + b).response(q) = b.response(q) whenever b has a response for q. -/
theorem nx_add_counterexample :
    dlookup c6b.responses [lC, rootLabel] = some c6r ∧
    dlookup (nxAdd c6a c6b).responses [lC, rootLabel] = none :=
  ⟨rfl, rfl⟩

/-- Claim C6 (amended): for NXDOMAIN values a and b such that b's qnames
are duplicate-free and every key of b's responses occurs among b's
qnames (as holds for every NXDOMAIN the resolver builds),
(a + b).qnames() is a.qnames() followed by exactly those entries of
b.qnames() not already present, preserving a's order, and
(a + b).response(q) is b.response(q) when b has a response for q, else
a.response(q). -/
theorem nx_add_amended (a b : NX) (hnd : b.qnames.Nodup)
    (hkeys : ∀ e ∈ b.responses, e.1 ∈ b.qnames) :
    (nxAdd a b).qnames =
      a.qnames ++ b.qnames.filter (fun q => decide (q ∉ a.qnames)) ∧
    ∀ q : DName, dlookup (nxAdd a b).responses q =
      match dlookup b.responses q with
      | some r => some r
      | none => dlookup a.responses q := by
  constructor
  · exact nxMergeLoop_qnames b.responses b.qnames a.qnames a.responses hnd
  · intro q
    cases hb : dlookup b.responses q with
    | none => exact nxMergeLoop_responses_none b.responses b.qnames _ _ q hb
    | some r =>
      have hqmem : q ∈ b.qnames := hkeys (q, r) (dlookup_some_mem _ _ _ hb)
      exact nxMergeLoop_responses_mem b.responses b.qnames _ _ q r hnd hqmem hb

def c6a2 : NX :=
  { qnames := [[lA, rootLabel]], responses := [([lA, rootLabel], c6r)] }

def c6b2 : NX :=
  { qnames := [[lA, rootLabel], [lB, rootLabel]],
    responses := [([lB, rootLabel], c6r)] }

/-- Witness for the amended C6 theorem on concrete well-formed NXDOMAIN
values. -/
theorem nx_add_amended_witness :
    (nxAdd c6a2 c6b2).qnames =
      c6a2.qnames ++ c6b2.qnames.filter (fun q => decide (q ∉ c6a2.qnames)) ∧
    dlookup (nxAdd c6a2 c6b2).responses [lB, rootLabel] =
      (match dlookup c6b2.responses [lB, rootLabel] with
      | some r => some r
      | none => dlookup c6a2.responses [lB, rootLabel]) :=
  ⟨(nx_add_amended c6a2 c6b2 (by decide) (by decide)).1,
   (nx_add_amended c6a2 c6b2 (by decide) (by decide)).2 [lB, rootLabel]⟩

/-! ## Claim C2: TCP retry returns a 3-tuple -/

def c8conf : ResolverConf :=
  { search := [[lCorp, lExample, rootLabel], [lExample, rootLabel]],
    domain := [lExample, rootLabel], ndots := some 1,
    use_search_by_default := false, nameservers := [ns1],
    nameserver_ports := [], port := 53, retry_servfail := false }

def c2state : Resolution :=
  { mkResolution c8conf [lHost] rtA rcIN false true (some true) with
      nameserver := some ns1, port := 53, retry_with_tcp := true }

/-- Claim C2 (code bug): on a state with retry_with_tcp set,
next_nameserver does keep the same nameserver and port, mark the attempt
TCP and clear the flag — but it returns the 3-tuple
(nameserver, port, True) with no backoff component, so the driver loop's
4-way unpacking (nameserver, port, tcp, backoff) raises ValueError
instead of escalating to TCP. -/
theorem next_nameserver_retry_three_tuple :
    c2state.nextNameserver = .ok (.three ns1 53 true,
      { c2state with tcp_attempt := true, retry_with_tcp := false }) ∧
    (match c2state.nextNameserver with
     | .ok p => driverUnpack p.1
     | .error e => .error e) = .error .valueError :=
  ⟨rfl, rfl⟩

/-! ## Claim C8: NXDOMAIN across the search list -/

def nxResp : Response :=
  { answer := [], authority := [], rcode := rcodeNXDOMAIN }

def c8hce : DName := [lHost, lCorp, lExample, rootLabel]

def c8he : DName := [lHost, lExample, rootLabel]

/-- The full resolve driver run for the C8 scenario: resolver with
search = [corp.example., example.], ndots = 1, one nameserver whose
transport answers NXDOMAIN to every query, looking up the one-label
name host. -/
def c8run : Except PyErr (Option AnswerV) :=
  resolveLoop 100 (fun _ _ _ _ => nxResp) 10
    (mkResolution c8conf [lHost] rtA rcIN false true (some true))

/-- Claim C8 (counterexample): the run raises NXDOMAIN whose qnames()
is [host.corp.example., host.example.] — only two names.  host. is
never a candidate (a one-label relative qname gets no as-absolute
candidate), so qnames() differs from the claimed three-element list. -/
theorem nxdomain_search_counterexample :
    c8run = .error (.nxdomain [c8hce, c8he]
      [(c8he, nxResp), (c8hce, nxResp)]) ∧
    ([c8hce, c8he] : List DName) ≠ [c8hce, c8he, [lHost, rootLabel]] :=
  ⟨rfl, by decide⟩

/-- Claim C8 (amended): with search = [corp.example., example.] and
ndots = 1, resolve of the one-label name host on all-NXDOMAIN transport
raises NXDOMAIN whose qnames() equals [host.corp.example.,
host.example.] — the candidate list in declared search order, which is
the reverse of the order actually tried, since next_request pops
candidates from the back — and whose responses contain an entry for each
of those two names.  host. is not among them. -/
theorem nxdomain_search_amended :
    c8run = .error (.nxdomain [c8hce, c8he]
      [(c8he, nxResp), (c8hce, nxResp)]) ∧
    dlookup [(c8he, nxResp), (c8hce, nxResp)] c8hce = some nxResp ∧
    dlookup [(c8he, nxResp), (c8hce, nxResp)] c8he = some nxResp :=
  ⟨rfl, rfl, rfl⟩
